import Mathlib

/-!
Verification of the `antsibull-fileutils` copying engine (`copier.py`, `vcs.py`)
against its natural-language specification.

Paths are modelled as POSIX path strings, i.e. lists of characters; the
`os.path` functions used by the code (`join`, `isabs`, `splitdrive`,
`normpath`, `split`, `relpath`) are embedded from CPython's `posixpath`
implementation.  The filesystem is modelled as a tree of files, directories
and symbolic links; `os`/`shutil` primitives (`lstat`, `readlink`,
`realpath`, `copy2`, `copytree`, `walk`, ...) are embedded on top of it.
-/

namespace AntsibullFileutils

/-- A POSIX path string, as a list of characters. -/
abbrev Str := List Char

/-- Convert a Lean string literal to the path-string model. -/
def cs (s : String) : Str := s.data

/-- `os.sep` on POSIX. -/
def sep : Char := '/'

/-- `posixpath.isabs(p)`: `p.startswith(sep)`. -/
def isabs (p : Str) : Bool :=
  match p with
  | [] => false
  | c :: _ => c == sep

/-- Whether a path string ends with the separator (`p.endswith(sep)`). -/
def endsWithSep (p : Str) : Bool := p.getLast? == some sep

/-- `posixpath.join(a, b)` for a single extra component:
`if b.startswith(sep): path = b; elif not path or path.endswith(sep):
path += b; else: path += sep + b`. -/
def join2 (a b : Str) : Str :=
  if isabs b then b
  else if a = [] ∨ endsWithSep a then a ++ b
  else a ++ sep :: b

/-- `posixpath.splitdrive(p)`: on POSIX the drive part is always empty
(`return p[:0], p`). -/
def splitdrive (p : Str) : Str × Str := ([], p)

/-- `p.split(sep)`, CPython `str.split` with an explicit separator:
`"a/b" -> ["a","b"]`, `"/a" -> ["","a"]`, `"a//b" -> ["a","","b"]`,
`"" -> [""]`. -/
def splitOnSep : Str → List Str
  | [] => [[]]
  | c :: rest =>
    match splitOnSep rest with
    | [] => if c = sep then [[], []] else [[c]]
    | s :: ss => if c = sep then [] :: s :: ss else (c :: s) :: ss

/-- `posixpath.normpath(p)`: purely lexical normalization, resolving `.`
and `..` components without touching the filesystem. -/
def normpath (p : Str) : Str :=
  if p = [] then cs "."
  else
    let initialSlashes : Nat :=
      if isabs p then
        if List.isPrefixOf (cs "//") p ∧ ¬ List.isPrefixOf (cs "///") p then 2
        else 1
      else 0
    let comps := splitOnSep p
    let newComps := comps.foldl
      (fun acc comp =>
        if comp = [] ∨ comp = cs "." then acc
        else if comp ≠ cs ".." ∨ (initialSlashes = 0 ∧ acc = []) ∨
            (acc ≠ [] ∧ acc.getLast? = some (cs "..")) then
          acc ++ [comp]
        else if acc ≠ [] then acc.dropLast
        else acc)
      []
    let path := List.replicate initialSlashes sep ++ List.intercalate [sep] newComps
    if path = [] then cs "." else path

/-- `_is_internal(directory, link)` from `copier.py`:

```
dest = os.path.join(directory, link)
if os.path.isabs(dest): return False
if os.path.splitdrive(dest)[0]: return False
normpath = os.path.normpath(dest)
return not (normpath == ".." or normpath.startswith(".." + os.sep))
```
-/
def is_internal (directory link : Str) : Bool :=
  let dest := join2 directory link
  if isabs dest then false
  else if (splitdrive dest).1 ≠ [] then false
  else
    let np := normpath dest
    !(np == cs ".." || List.isPrefixOf (cs ".." ++ [sep]) np)

/-- `posixpath.split(p)`: split off the final component.
`i = p.rfind(sep) + 1; head, tail = p[:i], p[i:];
if head and head != sep*len(head): head = head.rstrip(sep)`. -/
def splitPath (p : Str) : Str × Str :=
  let tail := (p.reverse.takeWhile (fun c => c ≠ sep)).reverse
  let head := p.take (p.length - tail.length)
  let head2 :=
    if head ≠ [] ∧ head.any (fun c => c ≠ sep) then
      (head.reverse.dropWhile (fun c => c = sep)).reverse
    else head
  (head2, tail)

/-- `posixpath.abspath(p)` for an absolute `p`: `normpath(join(cwd, p))`,
and `join(cwd, p) = p` when `p` is absolute.  The copier only calls
`relpath` on paths built by joining the (absolute) source root. -/
def abspathA (p : Str) : Str := normpath p

/-- `len(genericpath.commonprefix([a, b]))` on component lists. -/
def commonPrefixLen : List Str → List Str → Nat
  | a :: as, b :: bs => if a = b then commonPrefixLen as bs + 1 else 0
  | _, _ => 0

/-- `posixpath.relpath(path, start)` (both arguments absolute):

```
start_list = [x for x in abspath(start).split(sep) if x]
path_list = [x for x in abspath(path).split(sep) if x]
i = len(commonprefix([start_list, path_list]))
rel_list = [pardir] * (len(start_list)-i) + path_list[i:]
if not rel_list: return curdir
return join(*rel_list)
```
-/
def relpath (path start : Str) : Str :=
  let start_list := (splitOnSep (abspathA start)).filter (fun x => x ≠ [])
  let path_list := (splitOnSep (abspathA path)).filter (fun x => x ≠ [])
  let i := commonPrefixLen start_list path_list
  let rel_list := List.replicate (start_list.length - i) (cs "..") ++ path_list.drop i
  if rel_list = [] then cs "."
  else List.intercalate [sep] rel_list

/-! ## The filesystem model -/

/-- A node of the model filesystem: regular file (content bytes and
metadata), directory (named entries, in `scandir` order, and metadata), or
symbolic link (literal target text and metadata).  `meta` stands for the
`stat` data that `shutil.copystat` transfers (permission bits, timestamps). -/
inductive FSNode where
  | file (content : List Nat) (meta : Nat)
  | dir (entries : List (Str × FSNode)) (meta : Nat)
  | symlink (target : Str) (meta : Nat)

/-- The `stat` metadata of a node. -/
def metaOf : FSNode → Nat
  | FSNode.file _ m => m
  | FSNode.dir _ m => m
  | FSNode.symlink _ m => m

/-- Look up a name among directory entries. -/
def findEntry (entries : List (Str × FSNode)) (name : Str) : Option FSNode :=
  (entries.find? (fun e => e.1 == name)).map (fun e => e.2)

/-- Descend along already-resolved components; never follows symlinks. -/
def getNode : FSNode → List Str → Option FSNode
  | n, [] => some n
  | FSNode.dir entries _, name :: rest =>
    match findEntry entries name with
    | some child => getNode child rest
    | none => none
  | _, _ :: _ => none

/-- Core of `posixpath.realpath` (non-strict, as `os.path.realpath` uses):
resolve the raw components `rest` against the already-resolved absolute
path `cur`, following symlinks as they are met; `..` is applied to the
resolved prefix, empty and `.` components are skipped, and a missing name
is kept lexically (non-strict mode never raises for missing files).
`fuel` bounds symlink indirections (the `ELOOP` guard); `none` is returned
only when it runs out. -/
def resolveComps (fs : FSNode) : List Str → List Str → Nat → Option (List Str)
  | cur, [], _ => some cur
  | _, _ :: _, 0 => none
  | cur, name :: rest, fuel + 1 =>
    if name = [] ∨ name = cs "." then resolveComps fs cur rest fuel
    else if name = cs ".." then resolveComps fs cur.dropLast rest fuel
    else
      match getNode fs (cur ++ [name]) with
      | some (FSNode.symlink target _) =>
        if isabs target then resolveComps fs [] (splitOnSep target ++ rest) fuel
        else resolveComps fs cur (splitOnSep target ++ rest) fuel
      | _ => resolveComps fs (cur ++ [name]) rest fuel

/-- `os.path.realpath(p)` for an absolute path string `p`, rendered back as
an absolute path string. -/
def os_realpath (fs : FSNode) (p : Str) (fuel : Nat) : Option Str :=
  (resolveComps fs [] (splitOnSep p) fuel).map
    (fun comps => [sep] ++ List.intercalate [sep] comps)

/-- `os.stat(p)` for an absolute path string: resolve all components
(following symlinks) and return the node. -/
def os_stat (fs : FSNode) (p : Str) (fuel : Nat) : Option FSNode :=
  match resolveComps fs [] (splitOnSep p) fuel with
  | none => none
  | some comps => getNode fs comps

/-- `os.lstat(p)` for an absolute path string: resolve the parent directory
through symlinks, then look up the final component without following it. -/
def os_lstat (fs : FSNode) (p : Str) (fuel : Nat) : Option FSNode :=
  let ht := splitPath p
  match resolveComps fs [] (splitOnSep ht.1) fuel with
  | none => none
  | some dirComps =>
    if ht.2 = [] ∨ ht.2 = cs "." then getNode fs dirComps
    else if ht.2 = cs ".." then getNode fs dirComps.dropLast
    else getNode fs (dirComps ++ [ht.2])

/-- `os.path.lexists(p)`: `lstat` succeeds (does not dereference the final
symlink). -/
def os_lexists (fs : FSNode) (p : Str) (fuel : Nat) : Bool :=
  (os_lstat fs p fuel).isSome

/-- `os.path.islink(p)`. -/
def os_islink (fs : FSNode) (p : Str) (fuel : Nat) : Bool :=
  match os_lstat fs p fuel with
  | some (FSNode.symlink _ _) => true
  | _ => false

/-- `os.readlink(p)`: the literal target text of the symlink at `p`. -/
def os_readlink (fs : FSNode) (p : Str) (fuel : Nat) : Option Str :=
  match os_lstat fs p fuel with
  | some (FSNode.symlink target _) => some target
  | _ => none

/-- `os.path.isdir(p)`: `stat` (following symlinks) reaches a directory;
all errors (missing path, symlink loop) yield `False`. -/
def os_isdir (fs : FSNode) (p : Str) (fuel : Nat) : Bool :=
  match os_stat fs p fuel with
  | some (FSNode.dir _ _) => true
  | _ => false

/-! ## Destination model and `shutil` primitives -/

/-- An entry materialized in the destination tree. -/
inductive DEntry where
  | dfile (content : List Nat) (meta : Nat)
  | ddir (meta : Nat)
  | dlink (target : Str) (meta : Nat)
deriving Repr, DecidableEq

/-- `0o700`, the mode used for destination directories. -/
def mode700 : Nat := 448

/-- Record `e` at relative path `key` in the destination, replacing any
existing entry at the same path. -/
def destSet (d : List (Str × DEntry)) (key : Str) (e : DEntry) : List (Str × DEntry) :=
  if d.any (fun kv => kv.1 == key) then
    d.map (fun kv => if kv.1 == key then (kv.1, e) else kv)
  else d ++ [(key, e)]

/-- Exceptions raised by the `os`/`shutil` layer. -/
inductive Err where
  | fileNotFound (path : Str)   -- FileNotFoundError
  | isADirectory (path : Str)   -- IsADirectoryError
  | linkLoop (path : Str)       -- OSError (ELOOP); stands for fuel exhaustion
deriving Repr, DecidableEq

/-- `shutil.copy2(src, dst)`: read content and metadata of the file at the
absolute path `src`, following symlinks; raises `FileNotFoundError` when
nothing is there and `IsADirectoryError` on a directory.  In the model it
returns the content/metadata pair stored at the destination. -/
def shutil_copy2 (fs : FSNode) (src : Str) (fuel : Nat) : Except Err (List Nat × Nat) :=
  match resolveComps fs [] (splitOnSep src) fuel with
  | none => Except.error (Err.linkLoop src)
  | some comps =>
    match getNode fs comps with
    | some (FSNode.file c m) => Except.ok (c, m)
    | some (FSNode.dir _ _) => Except.error (Err.isADirectory src)
    | _ => Except.error (Err.fileNotFound src)

/-- One entry of the `shutil.copytree` loop: a directory entry (following
symlinks) is copied by a recursive `copytree` call (`recurse`), anything
else by `copy2` (dereferencing, so a dangling symlink is an error). -/
def copytreeStep (fs : FSNode) (src : Str) (fuel : Nat)
    (recurse : Str → Except Err (List (Str × DEntry)))
    (acc : Except Err (List (Str × DEntry))) (nc : Str × FSNode) :
    Except Err (List (Str × DEntry)) :=
  match acc with
  | Except.error e => Except.error e
  | Except.ok sofar =>
    let child := join2 src nc.1
    if os_isdir fs child fuel then
      match recurse child with
      | Except.ok s =>
        Except.ok (sofar ++ s.map (fun kv =>
          (if kv.1 = [] then nc.1 else join2 nc.1 kv.1, kv.2)))
      | Except.error e => Except.error e
    else
      match shutil_copy2 fs child fuel with
      | Except.ok cm => Except.ok (sofar ++ [(nc.1, DEntry.dfile cm.1 cm.2)])
      | Except.error e => Except.error e

/-- `shutil.copytree(src, dst, symlinks=False)`: recursively copy the
directory at `src`; `symlinks=False` dereferences every symlink met.
Returns destination entries keyed by path relative to `dst` (`[]` is `dst`
itself).  `fuel` bounds the recursion depth (symlink cycles make the
Python version fail too). -/
def shutil_copytree (fs : FSNode) : Nat → Str → Except Err (List (Str × DEntry))
  | 0, src => Except.error (Err.linkLoop src)
  | fuel + 1, src =>
    match os_stat fs src fuel with
    | some (FSNode.dir entries m) =>
      match entries.foldl
          (copytreeStep fs src fuel (fun child => shutil_copytree fs fuel child))
          (Except.ok []) with
      | Except.ok entries2 => Except.ok (([], DEntry.ddir m) :: entries2)
      | Except.error e => Except.error e
    | _ => Except.error (Err.fileNotFound src)

/-! ## The `_TreeCopier` engine -/

/-- Link-handling policy of a `_TreeCopier` (§3 CopyPolicy). -/
structure Policy where
  keep_inside_symlinks : Bool
  keep_outside_symlinks : Bool
  normalize_links : Bool
deriving Repr, DecidableEq

/-- `self.never_keep = not (keep_inside_symlinks or keep_outside_symlinks)`. -/
def Policy.never_keep (p : Policy) : Bool :=
  !(p.keep_inside_symlinks || p.keep_outside_symlinks)

/-- The defaults of `_TreeCopier.__init__`. -/
def defaultPolicy : Policy :=
  { keep_inside_symlinks := true, keep_outside_symlinks := false,
    normalize_links := true }

/-- State of a `_TreeCopier`: the absolute source root path, the set of
created destination directories (`self.created_directories`, seeded with
`{".", ""}`), and the destination contents keyed by path relative to the
destination root, in creation order. -/
structure TCState where
  source : Str
  createdDirs : List Str
  dest : List (Str × DEntry)
deriving Repr, DecidableEq

/-- `_TreeCopier.__init__`: seed the bookkeeping and
`os.mkdir(self.dest, mode=0o700)` — the fresh destination root. -/
def mkTreeCopier (source : Str) : TCState :=
  { source := source
    createdDirs := [cs ".", cs ""]
    dest := [(cs "", DEntry.ddir mode700)] }

/-- Result of one copier operation: the state reached, and the exception
propagating out of it, if any (Python exceptions do not roll back
already-performed filesystem writes). -/
abbrev TCRes := TCState × Option Err

/-- `os.makedirs(dir, mode=0o700, exist_ok=True)` on the destination:
create missing ancestors, then `dir` itself if missing.  `fuel` bounds the
ancestor chain (callers pass the path length, which suffices). -/
def os_makedirs (dest : List (Str × DEntry)) (dir : Str) : Nat → List (Str × DEntry)
  | 0 => dest
  | fuel + 1 =>
    let head := (splitPath dir).1
    let dest2 :=
      if head ≠ [] ∧ !(dest.any (fun kv => kv.1 == head)) then
        os_makedirs dest head fuel
      else dest
    if dest2.any (fun kv => kv.1 == dir) then dest2
    else dest2 ++ [(dir, DEntry.ddir mode700)]

/-- `_TreeCopier._create_dir(directory)`: if not yet recorded, recursively
create the destination directory and copy the source directory's metadata
onto it (`shutil.copystat(src_dir, dest_dir, follow_symlinks=False)`),
then record it. -/
def _create_dir (fs : FSNode) (st : TCState) (directory : Str) (fuel : Nat) : TCRes :=
  if st.createdDirs.any (fun d => d == directory) then (st, none)
  else
    let src_dir := join2 st.source directory
    let dest2 := os_makedirs st.dest directory (directory.length + 1)
    match os_lstat fs src_dir fuel with
    | none =>
      -- copystat raises after makedirs already ran
      ({ st with dest := dest2 }, some (Err.fileNotFound src_dir))
    | some n =>
      ({ st with
          dest := destSet dest2 directory (DEntry.ddir (metaOf n))
          createdDirs := st.createdDirs ++ [directory] }, none)

/-- `_TreeCopier._copy_link(directory, full_source, full_dest)`, with
`full_source = join(source, relative_path)` and the destination keyed by
`relative_path`. -/
def _copy_link (fs : FSNode) (pol : Policy) (st : TCState)
    (directory relative_path : Str) (fuel : Nat) : TCRes :=
  let full_source := join2 st.source relative_path
  match os_readlink fs full_source fuel with
  | none => (st, some (Err.fileNotFound full_source))
  | some link0 =>
    let link :=
      if pol.normalize_links then
        let full_directory := join2 st.source directory
        relpath (join2 full_directory link0) full_directory
      else link0
    let internal := if pol.never_keep then false else is_internal directory link
    let keep := if internal then pol.keep_inside_symlinks else pol.keep_outside_symlinks
    if keep then
      -- os.symlink(link, full_dest); copystat(full_source, full_dest,
      -- follow_symlinks=False): the link's own metadata is copied
      match os_lstat fs full_source fuel with
      | none => (st, some (Err.fileNotFound full_source))
      | some n =>
        ({ st with dest := destSet st.dest relative_path (DEntry.dlink link (metaOf n)) },
          none)
    else
      match os_realpath fs full_source fuel with
      | none => (st, some (Err.linkLoop full_source))
      | some real_source =>
        if os_isdir fs real_source fuel then
          match shutil_copytree fs (fuel + 1) real_source with
          | Except.error e => (st, some e)
          | Except.ok sub =>
            let dest2 := sub.foldl
              (fun d kv =>
                destSet d (if kv.1 = [] then relative_path else join2 relative_path kv.1)
                  kv.2)
              st.dest
            ({ st with dest := dest2 }, none)
        else
          match shutil_copy2 fs real_source fuel with
          | Except.error e => (st, some e)
          | Except.ok cm =>
            ({ st with dest := destSet st.dest relative_path (DEntry.dfile cm.1 cm.2) },
              none)

/-- `_TreeCopier._copy_file(directory, relative_path)`. -/
def _copy_file (fs : FSNode) (pol : Policy) (st : TCState)
    (directory relative_path : Str) (fuel : Nat) : TCRes :=
  match _create_dir fs st directory fuel with
  | (st1, some e) => (st1, some e)
  | (st1, none) =>
    let full_source := join2 st1.source relative_path
    if os_islink fs full_source fuel then
      _copy_link fs pol st1 directory relative_path fuel
    else
      match shutil_copy2 fs full_source fuel with
      | Except.error e => (st1, some e)
      | Except.ok cm =>
        ({ st1 with dest := destSet st1.dest relative_path (DEntry.dfile cm.1 cm.2) },
          none)

/-- `_TreeCopier.copy_file(relative_path, ignore_non_existing=...)`:
with the tolerance flag set, a source entry that fails the link-aware
existence test (`os.path.lexists`) is a silent no-op. -/
def TreeCopier_copy_file (fs : FSNode) (pol : Policy) (st : TCState)
    (relative_path : Str) (ignore_non_existing : Bool) (fuel : Nat) : TCRes :=
  if ignore_non_existing && !(os_lexists fs (join2 st.source relative_path) fuel) then
    (st, none)
  else
    let directory := (splitPath relative_path).1
    _copy_file fs pol st directory relative_path fuel

/-- Whether a scanned entry counts as a subdirectory for `os.walk`
(`entry.is_dir()`, which follows symlinks). -/
def entryIsDir (fs : FSNode) (absPath : Str) (node : FSNode) (fuel : Nat) : Bool :=
  match node with
  | FSNode.dir _ _ => true
  | FSNode.symlink _ _ => os_isdir fs absPath fuel
  | FSNode.file _ _ => false

/-- One step of the `for file in files` loop of `_TreeCopier.walk`:
skip excluded names, otherwise `_copy_file`; an exception aborts the rest
of the walk (state retained). -/
def walkFileStep (fs : FSNode) (pol : Policy) (directory : Str)
    (exclude : List Str) (fuel : Nat) (r : TCRes) (nc : Str × FSNode) : TCRes :=
  match r with
  | (st1, some e) => (st1, some e)
  | (st1, none) =>
    if exclude.any (fun x => x == nc.1) then (st1, none)
    else _copy_file fs pol st1 directory (join2 directory nc.1) fuel

/-- One step of the `for a_dir in dirs` loop of `_TreeCopier.walk`:
`_create_dir(os.path.join(directory, a_dir))`. -/
def walkDirStep (fs : FSNode) (directory : Str) (fuel : Nat)
    (r : TCRes) (nc : Str × FSNode) : TCRes :=
  match r with
  | (st1, some e) => (st1, some e)
  | (st1, none) => _create_dir fs st1 (join2 directory nc.1) fuel

/-- The body of the `os.walk(source, followlinks=False, topdown=True)` loop
in `_TreeCopier.walk`: at each directory (relative path `directory`,
`relpath(root, source)` with `"."` mapped to `""`), copy the non-excluded
files, prune excluded names from `dirs`, `_create_dir` the remaining
directories, and descend into those that are not symlinks.  The exclusion
set is cleared after the first (root) level (`exclude_root_set.clear()`),
so recursion passes `[]`. -/
def walkNode (fs : FSNode) (pol : Policy) :
    Nat → TCState → FSNode → Str → List Str → TCRes
  | 0, st, _, _, _ => (st, some (Err.linkLoop (cs "")))
  | fuel + 1, st, node, directory, exclude =>
    match node with
    | FSNode.dir entries _ =>
      let absDir := join2 st.source directory
      let isD := fun (nc : Str × FSNode) => entryIsDir fs (join2 absDir nc.1) nc.2 fuel
      let files := entries.filter (fun nc => !(isD nc))
      let dirs := entries.filter (fun nc => isD nc)
      let r1 := files.foldl (walkFileStep fs pol directory exclude fuel) (st, none)
      let dirs2 := dirs.filter (fun nc => !(exclude.any (fun x => x == nc.1)))
      let r2 := dirs2.foldl (walkDirStep fs directory fuel) r1
      dirs2.foldl
        (fun (r : TCRes) nc =>
          match r with
          | (st1, some e) => (st1, some e)
          | (st1, none) =>
            match nc.2 with
            | FSNode.dir _ _ => walkNode fs pol fuel st1 nc.2 (join2 directory nc.1) []
            | _ => (st1, none))
        r2
    | _ => (st, none)

/-- `_TreeCopier.walk(exclude_root=...)`: traverse from the source root
(`os.walk` on a missing or non-directory path yields nothing). -/
def TreeCopier_walk (fs : FSNode) (pol : Policy) (st : TCState)
    (exclude_root : List Str) (fuel : Nat) : TCRes :=
  match os_stat fs st.source fuel with
  | some (FSNode.dir entries m) =>
    walkNode fs pol fuel st (FSNode.dir entries m) (cs "") exclude_root
  | _ => (st, none)

/-- `Copier.copy(from_path, to_path, exclude_root=...)`: construct a
`_TreeCopier` (which freshly creates the destination root) and walk. -/
def Copier_copy (fs : FSNode) (pol : Policy) (source : Str)
    (exclude_root : List Str) (fuel : Nat) : TCRes :=
  TreeCopier_walk fs pol (mkTreeCopier source) exclude_root fuel

/-! ## `GitCopier` and `list_git_files` -/

/-- The `ValueError` raised by `list_git_files` (`vcs.py`): the git
executable is missing (`FileNotFoundError`) or exited non-zero
(`CalledProcessError`). -/
inductive GitErr where
  | cannotFindGit
  | gitFailed (returncode : Nat)
deriving Repr, DecidableEq

/-- The `CopierError` raised by `GitCopier.copy`: its message names the
source directory, and `raise ... from exc` chains the underlying cause. -/
structure GitCopierError where
  source : Str
  cause : GitErr
deriving Repr, DecidableEq

/-- An exception propagating out of `GitCopier.copy`. -/
inductive GitCopyErr where
  | copier (e : GitCopierError)  -- wrapped listing failure
  | fsError (e : Err)            -- uncaught OSError from the copy phase
deriving Repr, DecidableEq

/-- The per-file loop of `GitCopier.copy`: skip names in `exclude_root`
and names matching one of the `f"{path}/"` prefixes, otherwise
`tc.copy_file(file, ignore_non_existing=True)`; the first exception aborts
the loop (and propagates, state retained). -/
def gitCopyFiles (fs : FSNode) (pol : Policy) (exclude_root : List Str)
    (fuel : Nat) : TCState → List Str → TCRes
  | st, [] => (st, none)
  | st, file :: rest =>
    -- `exclude_root_set` membership, then the `f"{path}/"` prefix filter
    if exclude_root.any (fun x => x == file) then
      gitCopyFiles fs pol exclude_root fuel st rest
    else if (exclude_root.map (fun path => path ++ [sep])).any
        (fun pfx => List.isPrefixOf pfx file) then
      gitCopyFiles fs pol exclude_root fuel st rest
    else
      match TreeCopier_copy_file fs pol st file true fuel with
      | (st2, some e) => (st2, some e)   -- exception aborts the loop
      | (st2, none) => gitCopyFiles fs pol exclude_root fuel st2 rest

/-- `GitCopier.copy(from_path, to_path, exclude_root=...)`.  `listing` is
the outcome of `list_git_files(from_path)` with file names already decoded
(the claims here involve valid UTF-8 names only).  The result is the
destination contents — `none` when the destination root was never created,
i.e. the listing failed before the `_TreeCopier` was constructed — and the
propagated exception, if any. -/
def GitCopier_copy (fs : FSNode) (pol : Policy) (source : Str)
    (listing : Except GitErr (List Str)) (exclude_root : List Str)
    (copy_repo_structure : Bool) (fuel : Nat) :
    Option (List (Str × DEntry)) × Option GitCopyErr :=
  match listing with
  | Except.error exc => (none, some (GitCopyErr.copier ⟨source, exc⟩))
  | Except.ok files =>
    match gitCopyFiles fs pol exclude_root fuel (mkTreeCopier source) files with
    | (st, some e) => (some st.dest, some (GitCopyErr.fsError e))
    | (st, none) =>
      -- Copy .git directory as well if requested
      if copy_repo_structure && os_isdir fs (join2 source (cs ".git")) fuel then
        match TreeCopier_walk fs pol (mkTreeCopier (join2 source (cs ".git"))) [] fuel with
        | (gst, gerr) =>
          let merged := st.dest ++ gst.dest.map
            (fun kv => (if kv.1 = [] then cs ".git" else join2 (cs ".git") kv.1, kv.2))
          (some merged, gerr.map GitCopyErr.fsError)
      else (some st.dest, none)

/-! ## `CollectionCopier` -/

/-- `CollectionCopier.__enter__`: build
`<dir>/collections/ansible_collections/<namespace>` (`os.makedirs`, outcome
`mkdirs`), form `<...>/<name>`, run `self.copier.copy(source_directory,
collection_dir)`; on any exception, `shutil.rmtree(self.dir,
ignore_errors=True)` and re-raise.  Returns whether the temporary root was
removed, paired with the propagated outcome. -/
def CollectionCopier_enter {ε : Type} (dir ns name : Str)
    (mkdirs : Except ε Unit) (copy : Str → Str → Except ε Unit)
    (source_directory : Str) : Bool × Except ε (Str × Str) :=
  let collection_container_dir :=
    join2 (join2 (join2 dir (cs "collections")) (cs "ansible_collections")) ns
  match mkdirs with
  | Except.error e => (true, Except.error e)
  | Except.ok _ =>
    let collection_dir := join2 collection_container_dir name
    match copy source_directory collection_dir with
    | Except.error e => (true, Except.error e)
    | Except.ok _ => (false, Except.ok (dir, collection_dir))

/-- `with CollectionCopier(...) as (root, collection_dir): body` — Python
`with` semantics: run `__enter__`; if it raises, propagate (the root was
already removed by its `except` clause); otherwise run the body, then
`__exit__` (`shutil.rmtree(self.dir, ignore_errors=True)`, unconditional),
and propagate the body's outcome unmodified. -/
def CollectionCopier_with {ε β : Type} (dir ns name : Str)
    (mkdirs : Except ε Unit) (copy : Str → Str → Except ε Unit)
    (source_directory : Str) (body : Str × Str → Except ε β) :
    Bool × Except ε β :=
  match CollectionCopier_enter dir ns name mkdirs copy source_directory with
  | (removed, Except.error e) => (removed, Except.error e)
  | (_, Except.ok paths) => (true, body paths)

/-! ## Concrete filesystems (mirroring the repository's test trees) -/

/-- The source tree of `test_git_copier`: files, internal/external/dead
symlinks, a subdirectory. -/
def testSrc : FSNode := FSNode.dir [
  (cs "empty", FSNode.file [] 1),
  (cs "link", FSNode.symlink (cs "empty") 2),
  (cs "link_dir", FSNode.symlink (cs "dir") 3),
  (cs "trick_link", FSNode.symlink (cs "../src/empty") 4),
  (cs "out_link", FSNode.symlink (cs "../other") 5),
  (cs "out_link_dir", FSNode.symlink (cs "../other_dir") 6),
  (cs "abs_link", FSNode.symlink (cs "/src/empty") 7),
  (cs "dead_link", FSNode.symlink (cs "does-not-exist") 8),
  (cs "out_dead_link", FSNode.symlink (cs "../does-not-exist") 9),
  (cs "dir", FSNode.dir [(cs "binary_file", FSNode.file [0, 1, 2] 10),
                         (cs "another_file", FSNode.file [1] 11)] 12),
  (cs "file", FSNode.file [99] 13)] 30

/-- A root filesystem with the test source at `/src` and outside material. -/
def testFS : FSNode := FSNode.dir [
  (cs "src", testSrc),
  (cs "other", FSNode.file [7] 20),
  (cs "other_dir", FSNode.dir [(cs "file", FSNode.file [8] 21)] 22)] 0

/-- The four-entry source root of the C6 scenario:
`empty`, `link`, `dir/`, `file`. -/
def srcC6 : FSNode := FSNode.dir [
  (cs "empty", FSNode.file [] 1),
  (cs "link", FSNode.symlink (cs "empty") 2),
  (cs "dir", FSNode.dir [(cs "binary_file", FSNode.file [0, 1, 2] 10)] 12),
  (cs "file", FSNode.file [99] 13)] 30

/-- Root filesystem with the C6 source at `/src`. -/
def fsC6 : FSNode := FSNode.dir [(cs "src", srcC6)] 0

/-- A source root at `/dir` whose subdirectory `dir` holds a link to
`../sibling` written in the longer literal form `../../dir/sibling`
(the C2 scenario). -/
def fsSibling : FSNode := FSNode.dir [
  (cs "dir", FSNode.dir [
    (cs "dir", FSNode.dir [(cs "link", FSNode.symlink (cs "../../dir/sibling") 41)] 42),
    (cs "sibling", FSNode.file [5, 6] 43)] 44)] 0

/-- A git working tree at `/repo` with one tracked file and a `.git`
directory. -/
def fsGit : FSNode := FSNode.dir [
  (cs "repo", FSNode.dir [
    (cs "tracked", FSNode.file [1, 2] 51),
    (cs ".git", FSNode.dir [
      (cs "config", FSNode.file [3] 52),
      (cs "refs", FSNode.dir [(cs "head", FSNode.file [4] 53)] 54)] 55)] 56)] 0

/-- Like `fsGit`, but `.git` is a plain file (as in a submodule). -/
def fsGitFile : FSNode := FSNode.dir [
  (cs "repo", FSNode.dir [
    (cs "tracked", FSNode.file [1, 2] 51),
    (cs ".git", FSNode.file [9] 57)] 56)] 0

/-- The C5 source root at `/src`: a top-level file `name` and directory
`prune` (both to be excluded), and a directory `keep` that itself contains
entries named `name` and `prune` — same names, deeper level. -/
def srcC5 : FSNode := FSNode.dir [
  (cs "name", FSNode.file [1] 1),
  (cs "prune", FSNode.dir [(cs "inner", FSNode.file [2] 2)] 3),
  (cs "keep", FSNode.dir [
      (cs "name", FSNode.file [3] 4),
      (cs "prune", FSNode.dir [(cs "deep", FSNode.file [4] 5)] 6)] 7)] 8

/-- Root filesystem with the C5 source at `/src`. -/
def fsC5 : FSNode := FSNode.dir [(cs "src", srcC5)] 0

/-! ## Theorems -/

example : is_internal (cs "") (cs "foo") = true := by decide
example : is_internal (cs "") (cs "foo/../bar") = true := by decide
example : is_internal (cs "") (cs "foo/../../bar") = false := by decide
example : is_internal (cs "") (cs "..") = false := by decide
example : is_internal (cs "foo") (cs "..") = true := by decide
example : is_internal (cs "foo") (cs "../bar") = true := by decide
example : is_internal (cs "foo") (cs "../../bar") = false := by decide
example : is_internal (cs "") (cs "../../bar") = false := by decide
example : splitPath (cs "dir/binary_file") = (cs "dir", cs "binary_file") := by decide
example : splitPath (cs "file") = (cs "", cs "file") := by decide
example : splitPath (cs "/src/") = (cs "/src", cs "") := by decide
example : splitPath (cs "a/b/c") = (cs "a/b", cs "c") := by decide
example : relpath (cs "/src/empty") (cs "/src") = cs "empty" := by decide
example : relpath (cs "/src/../src/empty") (cs "/src") = cs "empty" := by decide
example : relpath (cs "/a/dir/../sibling") (cs "/a/dir") = cs "../sibling" := by decide
example : relpath (cs "/other") (cs "/src") = cs "../other" := by decide

/-- If the base is relative, joining cannot make the path absolute:
`isabs (join2 B T) = isabs T`. -/
theorem isabs_join2 (B T : Str) (hB : isabs B = false) :
    isabs (join2 B T) = isabs T := by
  unfold join2
  by_cases hT : isabs T = true
  · simp [hT]
  · simp only [Bool.not_eq_true] at hT
    simp only [hT, Bool.false_eq_true, if_false]
    by_cases hBe : B = [] ∨ endsWithSep B = true
    · cases hBe with
      | inl h => subst h; simp [hT]
      | inr h =>
        simp only [h, or_true, if_true]
        cases B with
        | nil => simp [hT]
        | cons b bs => simpa [isabs] using hB
    · simp only [hBe, if_false]
      cases B with
      | nil => simp at hBe
      | cons b bs => simpa [isabs] using hB

/-- C1: for every relative base directory string `B` and every literal link
target string `T`, `_is_internal(B, T)` returns `false` if and only if `T` is
an absolute path, or `join(B, T)` carries a drive qualifier, or the purely
lexical normalization of `join(B, T)` equals `".."` or begins with `".."`
followed by the path separator; in particular
`_is_internal("", "../../bar") = false`, `_is_internal("foo", "../bar") = true`,
`_is_internal("foo", "..") = true`, and
`_is_internal("", "foo/../../bar") = false`. -/
theorem claim_C1 :
    (∀ B T : Str, isabs B = false →
      (is_internal B T = false ↔
        (isabs T = true ∨ (splitdrive (join2 B T)).1 ≠ [] ∨
          normpath (join2 B T) = cs ".." ∨
          List.isPrefixOf (cs ".." ++ [sep]) (normpath (join2 B T)) = true))) ∧
    is_internal (cs "") (cs "../../bar") = false ∧
    is_internal (cs "foo") (cs "../bar") = true ∧
    is_internal (cs "foo") (cs "..") = true ∧
    is_internal (cs "") (cs "foo/../../bar") = false := by
  refine ⟨?_, by decide, by decide, by decide, by decide⟩
  intro B T hB
  have hj := isabs_join2 B T hB
  unfold is_internal
  cases hT : isabs T with
  | true => simp [hj, hT]
  | false =>
    simp only [hj, hT, Bool.false_eq_true, if_false, splitdrive, ne_eq,
      not_true_eq_false, not_false_eq_true]
    rw [Bool.not_eq_false', Bool.or_eq_true, beq_iff_eq, List.isPrefixOf_iff_prefix]
    simp

/-- Witness for `claim_C1` at the concrete input `B = "foo"`, `T = "../../bar"`. -/
theorem claim_C1_witness :
    isabs (cs "foo") = false ∧
    (is_internal (cs "foo") (cs "../../bar") = false ↔
      (isabs (cs "../../bar") = true ∨
        (splitdrive (join2 (cs "foo") (cs "../../bar"))).1 ≠ [] ∨
        normpath (join2 (cs "foo") (cs "../../bar")) = cs ".." ∨
        List.isPrefixOf (cs ".." ++ [sep])
          (normpath (join2 (cs "foo") (cs "../../bar"))) = true)) :=
  ⟨by decide, claim_C1.1 (cs "foo") (cs "../../bar") (by decide)⟩

/-- C7: for every selective copy of a relative path with the
vanished-source-tolerance flag set, if the source entry no longer exists at
copy time (checked with `os.path.lexists`, which does not dereference
symlinks), `copy_file` returns immediately as a no-op without raising, the
operation as a whole completes successfully, and the destination simply
omits that path. -/
theorem claim_C7 (fs : FSNode) (pol : Policy) (source relative_path : Str)
    (fuel : Nat)
    (hgone : os_lexists fs (join2 source relative_path) fuel = false) :
    (∀ st : TCState, st.source = source →
      TreeCopier_copy_file fs pol st relative_path true fuel = (st, none)) ∧
    GitCopier_copy fs pol source (Except.ok [relative_path]) [] false fuel =
      (some [(cs "", DEntry.ddir mode700)], none) := by
  have hstep : ∀ st : TCState, st.source = source →
      TreeCopier_copy_file fs pol st relative_path true fuel = (st, none) := by
    intro st hsrc
    unfold TreeCopier_copy_file
    rw [hsrc, hgone]
    simp
  refine ⟨hstep, ?_⟩
  have h0 := hstep (mkTreeCopier source) rfl
  simp only [GitCopier_copy, gitCopyFiles, List.any_nil, List.map_nil,
    Bool.false_eq_true, if_false, h0]
  simp [mkTreeCopier]

/-- Witness for `claim_C7`: the tracked path `foobar` has no backing file in
`fsC6`. -/
theorem claim_C7_witness :
    os_lexists fsC6 (join2 (cs "/src") (cs "foobar")) 20 = false ∧
    ((∀ st : TCState, st.source = cs "/src" →
      TreeCopier_copy_file fsC6 defaultPolicy st (cs "foobar") true 20 = (st, none)) ∧
    GitCopier_copy fsC6 defaultPolicy (cs "/src") (Except.ok [cs "foobar"]) [] false 20 =
      (some [(cs "", DEntry.ddir mode700)], none)) :=
  ⟨rfl, claim_C7 fsC6 defaultPolicy (cs "/src") (cs "foobar") 20 rfl⟩

/-- C8: for every VCS-selective copy, if the external file-listing operation
fails, `GitCopier.copy` raises a wrapped `CopierError` that names the source
directory and chains the underlying cause; the listing happens before any
writes and before the destination root is created, so nothing is copied and
no destination is left behind (first conjunct: the destination is `none`).
Conversely, when the listing succeeds the destination root is created
(second conjunct). -/
theorem claim_C8 (fs : FSNode) (pol : Policy) (source : Str) (exc : GitErr)
    (exclude_root : List Str) (copy_repo_structure : Bool) (fuel : Nat) :
    GitCopier_copy fs pol source (Except.error exc) exclude_root
        copy_repo_structure fuel =
      (none, some (GitCopyErr.copier ⟨source, exc⟩)) ∧
    (∀ files : List Str,
      (GitCopier_copy fs pol source (Except.ok files) exclude_root
          copy_repo_structure fuel).1 ≠ none) := by
  refine ⟨rfl, ?_⟩
  intro files
  rcases h : gitCopyFiles fs pol exclude_root fuel (mkTreeCopier source) files
    with ⟨st, err⟩
  cases err with
  | some e => simp [GitCopier_copy, h]
  | none =>
    cases hgit : (copy_repo_structure &&
        os_isdir fs (join2 source (cs ".git")) fuel) <;>
      simp [GitCopier_copy, h, hgit]

/-- C9: for every use of the Collection Staging Coordinator's scope, if an
exception is raised during setup (creating the nested layout or populating
the collection directory) or during the caller's use of the scope, the
entire temporary root is removed (cleanup errors suppressed by
`ignore_errors=True`) before the exception propagates unmodified — the
coordinator never catches or suppresses the underlying copy error; on
normal scope exit the same removal occurs unconditionally.  The first
conjunct shows the removal happens on every path. -/
theorem claim_C9 {ε β : Type} (dir ns name source : Str)
    (mkdirs : Except ε Unit) (copy : Str → Str → Except ε Unit)
    (body : Str × Str → Except ε β) :
    (CollectionCopier_with dir ns name mkdirs copy source body).1 = true ∧
    (∀ e, mkdirs = Except.error e →
      (CollectionCopier_with dir ns name mkdirs copy source body).2 =
        Except.error e) ∧
    (∀ e, mkdirs = Except.ok () →
      copy source
          (join2 (join2 (join2 (join2 dir (cs "collections"))
            (cs "ansible_collections")) ns) name) = Except.error e →
      (CollectionCopier_with dir ns name mkdirs copy source body).2 =
        Except.error e) ∧
    (mkdirs = Except.ok () →
      ∀ u, copy source
          (join2 (join2 (join2 (join2 dir (cs "collections"))
            (cs "ansible_collections")) ns) name) = Except.ok u →
      (CollectionCopier_with dir ns name mkdirs copy source body).2 =
        body (dir,
          join2 (join2 (join2 (join2 dir (cs "collections"))
            (cs "ansible_collections")) ns) name)) := by
  unfold CollectionCopier_with CollectionCopier_enter
  cases mkdirs with
  | error e => simp
  | ok u =>
    cases hc : copy source
        (join2 (join2 (join2 (join2 dir (cs "collections"))
          (cs "ansible_collections")) ns) name) with
    | error e => simp [hc]
    | ok v => simp [hc]

/-- Witness for `claim_C9`: a copy step that fails with error `7` propagates
unmodified, and the temporary root is removed. -/
theorem claim_C9_witness :
    (CollectionCopier_with (cs "/tmp/x") (cs "foo") (cs "bar")
      (Except.ok ()) (fun _ _ => Except.error 7) (cs "/coll")
      (fun _ => (Except.ok 1 : Except Nat Nat))).1 = true ∧
    (CollectionCopier_with (cs "/tmp/x") (cs "foo") (cs "bar")
      (Except.ok ()) (fun _ _ => Except.error 7) (cs "/coll")
      (fun _ => (Except.ok 1 : Except Nat Nat))).2 = Except.error 7 := by
  have h := claim_C9 (ε := Nat) (β := Nat) (cs "/tmp/x") (cs "foo") (cs "bar")
    (cs "/coll") (Except.ok ()) (fun _ _ => Except.error 7)
    (fun _ => Except.ok 1)
  exact ⟨h.1, h.2.2.1 7 rfl rfl⟩

/-- C2: for every copy with `keep_inside_symlinks = true` and
`normalize_links = true`, a symlink whose (rewritten) target is classified
internal is reproduced in the destination as a symbolic link with the
link's own metadata `m` (not the target's), and its stored target text is
the recomputed relative path from the link's containing directory
(`relpath(join(full_directory, T), full_directory)`).  The second conjunct
is the claim's concrete scenario: a link at `dir/link` whose literal source
text uses the longer `../../dir/sibling` form is kept as a link with
target text recomputed to `../sibling` relative to `dir`. -/
theorem claim_C2 (fs : FSNode) (st : TCState) (keep_out : Bool)
    (directory relative_path T : Str) (m fuel : Nat)
    (hL : os_lstat fs (join2 st.source relative_path) fuel =
      some (FSNode.symlink T m))
    (hInt : is_internal directory
      (relpath (join2 (join2 st.source directory) T)
        (join2 st.source directory)) = true) :
    _copy_link fs
        { keep_inside_symlinks := true, keep_outside_symlinks := keep_out,
          normalize_links := true }
        st directory relative_path fuel =
      ({ st with dest := (destSet st.dest relative_path
          (DEntry.dlink
            (relpath (join2 (join2 st.source directory) T)
              (join2 st.source directory)) m)) }, none) ∧
    TreeCopier_copy_file fsSibling defaultPolicy (mkTreeCopier (cs "/dir"))
        (cs "dir/link") false 20 =
      ({ source := cs "/dir",
         createdDirs := [cs ".", cs "", cs "dir"],
         dest := [(cs "", DEntry.ddir mode700),
                  (cs "dir", DEntry.ddir 42),
                  (cs "dir/link", DEntry.dlink (cs "../sibling") 41)] }, none) := by
  constructor
  · simp only [_copy_link, os_readlink, hL, Policy.never_keep, Bool.true_or,
      Bool.not_true, Bool.false_eq_true, if_false, hInt, if_true, metaOf]
  · decide

/-- Witness for `claim_C2`: the `trick_link` of the test tree, literally
`../src/empty`, is kept as a link with recomputed target `empty`. -/
theorem claim_C2_witness :
    (os_lstat testFS (join2 (cs "/src") (cs "trick_link")) 20 =
      some (FSNode.symlink (cs "../src/empty") 4)) ∧
    is_internal (cs "")
      (relpath (join2 (join2 (cs "/src") (cs "")) (cs "../src/empty"))
        (join2 (cs "/src") (cs ""))) = true ∧
    (_copy_link testFS
        { keep_inside_symlinks := true, keep_outside_symlinks := false,
          normalize_links := true }
        (mkTreeCopier (cs "/src")) (cs "") (cs "trick_link") 20 =
      ({ (mkTreeCopier (cs "/src")) with
          dest := (destSet (mkTreeCopier (cs "/src")).dest (cs "trick_link")
            (DEntry.dlink
              (relpath (join2 (join2 (cs "/src") (cs "")) (cs "../src/empty"))
                (join2 (cs "/src") (cs ""))) 4)) }, none)) :=
  ⟨rfl, by decide,
    (claim_C2 testFS (mkTreeCopier (cs "/src")) false (cs "") (cs "trick_link")
      (cs "../src/empty") 4 20 rfl (by decide)).1⟩

/-- The walk depends on the exclusion list only through membership of the
names at the level being processed (and recursion clears it): two
exclusion lists agreeing on the current directory's entry names walk
identically. -/
lemma walkNode_exclude_congr (fs : FSNode) (pol : Policy) (fuel : Nat) (st : TCState)
    (entries : List (Str × FSNode)) (m : Nat) (directory : Str) (e e' : List Str)
    (h : ∀ nc ∈ entries, e.any (fun x => x == nc.1) = e'.any (fun x => x == nc.1)) :
    walkNode fs pol fuel st (FSNode.dir entries m) directory e =
      walkNode fs pol fuel st (FSNode.dir entries m) directory e' := by
  cases fuel with
  | zero => rfl
  | succ fuel =>
    simp only [walkNode]
    have hfoldEq :
        List.foldl (walkFileStep fs pol directory e fuel) (st, none)
          (entries.filter (fun nc =>
            !(entryIsDir fs (join2 (join2 st.source directory) nc.1) nc.2 fuel))) =
        List.foldl (walkFileStep fs pol directory e' fuel) (st, none)
          (entries.filter (fun nc =>
            !(entryIsDir fs (join2 (join2 st.source directory) nc.1) nc.2 fuel))) := by
      apply List.foldl_ext
      intro r nc hnc
      rcases r with ⟨st1, err⟩
      cases err with
      | some err => rfl
      | none =>
        simp only [walkFileStep]
        rw [h nc (List.mem_filter.mp hnc).1]
    have hfiltEq :
        List.filter (fun nc => !(e.any (fun x => x == nc.1)))
          (entries.filter (fun nc =>
            entryIsDir fs (join2 (join2 st.source directory) nc.1) nc.2 fuel)) =
        List.filter (fun nc => !(e'.any (fun x => x == nc.1)))
          (entries.filter (fun nc =>
            entryIsDir fs (join2 (join2 st.source directory) nc.1) nc.2 fuel)) := by
      apply List.filter_congr
      intro nc hnc
      rw [h nc (List.mem_filter.mp hnc).1]
    rw [hfoldEq, hfiltEq]

/-- C5: for every full-tree walk with an exclusion list, exclusion is
applied exactly once, at the root level of the traversal: the top-level
file `name` (in the exclusion set) is skipped and the top-level directory
`prune` (in the set) is pruned from further traversal, while the entries
`keep/name` and `keep/prune` at the deeper level are copied even though
their names are in the exclusion set.  Quantified over every exclusion
list containing `name` and `prune` but not `keep`. -/
theorem claim_C5 (exclude : List Str)
    (h1 : cs "name" ∈ exclude) (h2 : cs "prune" ∈ exclude)
    (h3 : cs "keep" ∉ exclude) :
    Copier_copy fsC5 defaultPolicy (cs "/src") exclude 30 =
      ({ source := cs "/src",
         createdDirs := [cs ".", cs "", cs "keep", cs "keep/prune"],
         dest := [(cs "", DEntry.ddir mode700),
                  (cs "keep", DEntry.ddir 7),
                  (cs "keep/name", DEntry.dfile [3] 4),
                  (cs "keep/prune", DEntry.ddir 6),
                  (cs "keep/prune/deep", DEntry.dfile [4] 5)] }, none) := by
  have e1 : (exclude.any (fun x => x == cs "name")) = true :=
    List.any_eq_true.mpr ⟨cs "name", h1, by simp⟩
  have e2 : (exclude.any (fun x => x == cs "prune")) = true :=
    List.any_eq_true.mpr ⟨cs "prune", h2, by simp⟩
  have e3 : (exclude.any (fun x => x == cs "keep")) = false := by
    rw [List.any_eq_false]
    intro x hx hbeq
    exact h3 (by rwa [show x = cs "keep" from by simpa using hbeq] at hx)
  have hc : ∀ nc ∈ [(cs "name", FSNode.file [1] 1),
      (cs "prune", FSNode.dir [(cs "inner", FSNode.file [2] 2)] 3),
      (cs "keep", FSNode.dir [(cs "name", FSNode.file [3] 4),
        (cs "prune", FSNode.dir [(cs "deep", FSNode.file [4] 5)] 6)] 7)],
      exclude.any (fun x => x == nc.1) =
        [cs "name", cs "prune"].any (fun x => x == nc.1) := by
    intro nc hnc
    simp only [List.mem_cons, List.not_mem_nil, or_false] at hnc
    rcases hnc with h | h | h <;> subst h
    · rw [e1]; decide
    · rw [e2]; decide
    · rw [e3]; decide
  calc Copier_copy fsC5 defaultPolicy (cs "/src") exclude 30
      = walkNode fsC5 defaultPolicy 30 (mkTreeCopier (cs "/src"))
          (FSNode.dir [(cs "name", FSNode.file [1] 1),
            (cs "prune", FSNode.dir [(cs "inner", FSNode.file [2] 2)] 3),
            (cs "keep", FSNode.dir [(cs "name", FSNode.file [3] 4),
              (cs "prune", FSNode.dir [(cs "deep", FSNode.file [4] 5)] 6)] 7)] 8)
          (cs "") exclude := rfl
    _ = walkNode fsC5 defaultPolicy 30 (mkTreeCopier (cs "/src"))
          (FSNode.dir [(cs "name", FSNode.file [1] 1),
            (cs "prune", FSNode.dir [(cs "inner", FSNode.file [2] 2)] 3),
            (cs "keep", FSNode.dir [(cs "name", FSNode.file [3] 4),
              (cs "prune", FSNode.dir [(cs "deep", FSNode.file [4] 5)] 6)] 7)] 8)
          (cs "") [cs "name", cs "prune"] :=
        walkNode_exclude_congr _ _ _ _ _ _ _ _ _ hc
    _ = _ := by decide

/-- Witness for `claim_C5` at the concrete exclusion list
`["name", "prune", "other"]`. -/
theorem claim_C5_witness :
    (cs "name" ∈ [cs "name", cs "prune", cs "other"]) ∧
    (cs "prune" ∈ [cs "name", cs "prune", cs "other"]) ∧
    (cs "keep" ∉ [cs "name", cs "prune", cs "other"]) ∧
    Copier_copy fsC5 defaultPolicy (cs "/src")
        [cs "name", cs "prune", cs "other"] 30 =
      ({ source := cs "/src",
         createdDirs := [cs ".", cs "", cs "keep", cs "keep/prune"],
         dest := [(cs "", DEntry.ddir mode700),
                  (cs "keep", DEntry.ddir 7),
                  (cs "keep/name", DEntry.dfile [3] 4),
                  (cs "keep/prune", DEntry.ddir 6),
                  (cs "keep/prune/deep", DEntry.dfile [4] 5)] }, none) :=
  ⟨by decide, by decide, by decide,
    claim_C5 [cs "name", cs "prune", cs "other"] (by decide) (by decide) (by decide)⟩
lemma destSet_mem (d : List (Str × DEntry)) (k : Str) (e : DEntry)
    (kv : Str × DEntry) (h : kv ∈ destSet d k e) : kv ∈ d ∨ kv = (k, e) := by
  unfold destSet at h
  by_cases hany : d.any (fun kv => kv.1 == k) = true
  · rw [if_pos hany] at h
    rcases List.mem_map.mp h with ⟨pre, hpre, heq⟩
    by_cases hb : (pre.1 == k) = true
    · right
      rw [← heq]
      simp only [hb, if_true]
      rw [eq_of_beq hb]
    · left
      rw [← heq]
      simp only [hb, Bool.false_eq_true, if_false]
      exact hpre
  · rw [if_neg hany] at h
    rcases List.mem_append.mp h with h2 | h2
    · exact Or.inl h2
    · exact Or.inr (List.mem_singleton.mp h2)

lemma copytreeStep_no_dlink (fs : FSNode) (src : Str) (fuel : Nat)
    (recurse : Str → Except Err (List (Str × DEntry)))
    (hrec : ∀ child sub, recurse child = Except.ok sub →
      ∀ kv ∈ sub, ∀ t m2, kv.2 ≠ DEntry.dlink t m2)
    (acc : Except Err (List (Str × DEntry))) (nc : Str × FSNode)
    (hacc : ∀ sub, acc = Except.ok sub →
      ∀ kv ∈ sub, ∀ t m2, kv.2 ≠ DEntry.dlink t m2) :
    ∀ sub, copytreeStep fs src fuel recurse acc nc = Except.ok sub →
      ∀ kv ∈ sub, ∀ t m2, kv.2 ≠ DEntry.dlink t m2 := by
  intro sub h kv hkv t m2
  unfold copytreeStep at h
  cases acc with
  | error e => simp at h
  | ok sofar =>
    by_cases hdir : os_isdir fs (join2 src nc.1) fuel = true
    · simp only [hdir, if_true] at h
      cases hr : recurse (join2 src nc.1) with
      | error e => rw [hr] at h; simp at h
      | ok s =>
        rw [hr] at h
        simp only [Except.ok.injEq] at h
        rw [← h] at hkv
        rcases List.mem_append.mp hkv with h2 | h2
        · exact hacc sofar rfl kv h2 t m2
        · rcases List.mem_map.mp h2 with ⟨orig, horig, heq⟩
          have : kv.2 = orig.2 := by rw [← heq]
          rw [this]
          exact hrec _ s hr orig horig t m2
    · simp only [hdir, Bool.false_eq_true, if_false] at h
      cases hc2 : shutil_copy2 fs (join2 src nc.1) fuel with
      | error e => rw [hc2] at h; simp at h
      | ok cm =>
        rw [hc2] at h
        simp only [Except.ok.injEq] at h
        rw [← h] at hkv
        rcases List.mem_append.mp hkv with h2 | h2
        · exact hacc sofar rfl kv h2 t m2
        · rw [List.mem_singleton.mp h2]
          simp

lemma copytree_no_dlink : ∀ (fuel : Nat) (fs : FSNode) (src : Str)
    (sub : List (Str × DEntry)),
    shutil_copytree fs fuel src = Except.ok sub →
    ∀ kv ∈ sub, ∀ t m2, kv.2 ≠ DEntry.dlink t m2 := by
  intro fuel
  induction fuel with
  | zero =>
    intro fs src sub h
    simp [shutil_copytree] at h
  | succ fuel ih =>
    intro fs src sub h
    unfold shutil_copytree at h
    cases hstat : os_stat fs src fuel with
    | none => rw [hstat] at h; simp at h
    | some node =>
      rw [hstat] at h
      cases node with
      | file c m => simp at h
      | symlink t m => simp at h
      | dir entries m =>
        replace h : (match List.foldl
            (copytreeStep fs src fuel (fun child => shutil_copytree fs fuel child))
            (Except.ok []) entries with
          | Except.ok entries2 => Except.ok ((([] : Str), DEntry.ddir m) :: entries2)
          | Except.error e => Except.error e) = Except.ok sub := h
        have hC : ∀ s2, List.foldl
            (copytreeStep fs src fuel (fun child => shutil_copytree fs fuel child))
            (Except.ok []) entries = Except.ok s2 →
            ∀ kv ∈ s2, ∀ t m2, kv.2 ≠ DEntry.dlink t m2 := by
          refine List.foldlRecOn (motive := fun (r : Except Err (List (Str × DEntry))) =>
              ∀ (s2 : List (Str × DEntry)), r = Except.ok s2 →
              ∀ (kv : Str × DEntry), kv ∈ s2 → ∀ (t : Str) (m2 : Nat),
                kv.2 ≠ DEntry.dlink t m2)
            entries _ (Except.ok []) ?_ ?_
          · intro s2 h0 kv hkv
            rw [show s2 = [] from by simpa using h0.symm] at hkv
            simp at hkv
          · intro b hb a ha
            exact copytreeStep_no_dlink fs src fuel _
              (fun child s hs => ih fs child s hs) b a hb
        cases hfold : List.foldl
            (copytreeStep fs src fuel (fun child => shutil_copytree fs fuel child))
            (Except.ok []) entries with
        | error e => rw [hfold] at h; exact Except.noConfusion h
        | ok e2 =>
          simp only [hfold, Except.ok.injEq] at h
          intro kv hkv t m2
          rw [← h] at hkv
          rcases List.mem_cons.mp hkv with h2 | h2
          · rw [h2]; simp
          · exact hC e2 hfold kv h2 t m2

/-- C3: for every symlink whose selected keep-flag is false — in particular
whenever both keep-flags are false (`never_keep`, classification skipped)
and whenever `keep_outside_symlinks` is false and the link's target escapes
the copy root — the copier materializes the link: it resolves the link
through the filesystem (`os.path.realpath`), copies a directory target as a
full recursive non-link tree into the destination path (`shutil.copytree`
with `symlinks=False`; third conjunct, including that the copied tree holds
no symlink), and copies a file target's content and metadata to the
destination path (`shutil.copy2`; second conjunct); the destination never
contains a symlink for such entries (first conjunct). -/
theorem claim_C3 (fs : FSNode) (pol : Policy) (st : TCState)
    (directory relative_path T rp : Str) (m fuel : Nat)
    (hL : os_lstat fs (join2 st.source relative_path) fuel =
      some (FSNode.symlink T m))
    (hkeep : (if (if pol.never_keep then false
          else is_internal directory
            (if pol.normalize_links then
              relpath (join2 (join2 st.source directory) T)
                (join2 st.source directory)
            else T)) then pol.keep_inside_symlinks
        else pol.keep_outside_symlinks) = false)
    (hrp : os_realpath fs (join2 st.source relative_path) fuel = some rp) :
    (∀ kv ∈ (_copy_link fs pol st directory relative_path fuel).1.dest,
      kv ∈ st.dest ∨ ∀ t m2, kv.2 ≠ DEntry.dlink t m2) ∧
    (∀ c m2, os_isdir fs rp fuel = false →
      shutil_copy2 fs rp fuel = Except.ok (c, m2) →
      _copy_link fs pol st directory relative_path fuel =
        ({ st with dest := (destSet st.dest relative_path (DEntry.dfile c m2)) },
          none)) ∧
    (∀ sub, os_isdir fs rp fuel = true →
      shutil_copytree fs (fuel + 1) rp = Except.ok sub →
      ((_copy_link fs pol st directory relative_path fuel =
        ({ st with dest := (sub.foldl (fun d kv =>
            destSet d (if kv.1 = [] then relative_path
              else join2 relative_path kv.1) kv.2) st.dest) }, none)) ∧
      ∀ kv ∈ sub, ∀ t m2, kv.2 ≠ DEntry.dlink t m2)) := by
  have hred : _copy_link fs pol st directory relative_path fuel =
      (if os_isdir fs rp fuel = true then
        match shutil_copytree fs (fuel + 1) rp with
        | Except.error e => (st, some e)
        | Except.ok sub =>
          ({ st with dest := (sub.foldl (fun d kv =>
              destSet d (if kv.1 = [] then relative_path
                else join2 relative_path kv.1) kv.2) st.dest) }, none)
      else
        match shutil_copy2 fs rp fuel with
        | Except.error e => (st, some e)
        | Except.ok cm =>
          ({ st with dest := (destSet st.dest relative_path
              (DEntry.dfile cm.1 cm.2)) }, none)) := by
    simp only [_copy_link, os_readlink, hL, hkeep, Bool.false_eq_true,
      if_false, hrp]
  refine ⟨?_, ?_, ?_⟩
  · rw [hred]
    by_cases hdir : os_isdir fs rp fuel = true
    · rw [if_pos hdir]
      cases hct : shutil_copytree fs (fuel + 1) rp with
      | error e => intro kv hkv; exact Or.inl hkv
      | ok sub =>
        intro kv hkv
        simp only at hkv
        refine List.foldlRecOn
          (motive := fun (d : List (Str × DEntry)) =>
            ∀ (kv : Str × DEntry), kv ∈ d →
              kv ∈ st.dest ∨ ∀ (t : Str) (m2 : Nat), kv.2 ≠ DEntry.dlink t m2)
          sub _ st.dest (fun kv2 h2 => Or.inl h2) ?_ kv hkv
        intro b hb a ha kv2 hkv2
        rcases destSet_mem b _ _ kv2 hkv2 with h2 | h2
        · exact hb kv2 h2
        · right
          intro t m2
          rw [h2]
          exact copytree_no_dlink (fuel + 1) fs rp sub hct a ha t m2
    · simp only [Bool.not_eq_true] at hdir
      rw [hdir]
      simp only [Bool.false_eq_true, if_false]
      cases hc2 : shutil_copy2 fs rp fuel with
      | error e => intro kv hkv; exact Or.inl hkv
      | ok cm =>
        intro kv hkv
        simp only at hkv
        rcases destSet_mem st.dest _ _ kv hkv with h2 | h2
        · exact Or.inl h2
        · right; intro t m2; rw [h2]; simp
  · intro c m2 hdir hc2
    rw [hred, hdir]
    simp only [Bool.false_eq_true, if_false, hc2]
  · intro sub hdir hct
    refine ⟨?_, fun kv hkv t m2 =>
      copytree_no_dlink (fuel + 1) fs rp sub hct kv hkv t m2⟩
    rw [hred, if_pos hdir, hct]

/-- Witness for `claim_C3`: the test tree's `out_link_dir`, an external
link to a directory, is materialized as a full content copy. -/
theorem claim_C3_witness :
    (os_lstat testFS (join2 (cs "/src") (cs "out_link_dir")) 20 =
      some (FSNode.symlink (cs "../other_dir") 6)) ∧
    ((if (if defaultPolicy.never_keep then false
          else is_internal (cs "")
            (if defaultPolicy.normalize_links then
              relpath (join2 (join2 (cs "/src") (cs "")) (cs "../other_dir"))
                (join2 (cs "/src") (cs ""))
            else cs "../other_dir")) then defaultPolicy.keep_inside_symlinks
        else defaultPolicy.keep_outside_symlinks) = false) ∧
    (os_realpath testFS (join2 (cs "/src") (cs "out_link_dir")) 20 =
      some (cs "/other_dir")) ∧
    (∀ kv ∈ (_copy_link testFS defaultPolicy (mkTreeCopier (cs "/src"))
        (cs "") (cs "out_link_dir") 20).1.dest,
      kv ∈ (mkTreeCopier (cs "/src")).dest ∨
        ∀ t m2, kv.2 ≠ DEntry.dlink t m2) := by
  refine ⟨rfl, by decide, rfl, ?_⟩
  have h := claim_C3 testFS defaultPolicy (mkTreeCopier (cs "/src"))
    (cs "") (cs "out_link_dir") (cs "../other_dir") (cs "/other_dir") 6 20
    rfl (by decide) rfl
  intro kv hkv
  have := h.1 kv (by simpa [mkTreeCopier] using hkv)
  simpa [mkTreeCopier] using this

/-- C4: for every symlink that is not being kept as a link, if the link's
ultimate resolved target does not exist (a dangling link), the copy of that
entry raises a not-found error (`FileNotFoundError` from `shutil.copy2`
on the resolved path); the second conjunct shows it propagating out of a
whole `GitCopier.copy` — the copy aborts (`empty` is never copied), it
is not silently skipped, and the already-copied entry `file` is not
rolled back. -/
theorem claim_C4 (fs : FSNode) (pol : Policy) (st : TCState)
    (directory relative_path T rp : Str) (comps : List Str) (m fuel : Nat)
    (hL : os_lstat fs (join2 st.source relative_path) fuel =
      some (FSNode.symlink T m))
    (hkeep : (if (if pol.never_keep then false
          else is_internal directory
            (if pol.normalize_links then
              relpath (join2 (join2 st.source directory) T)
                (join2 st.source directory)
            else T)) then pol.keep_inside_symlinks
        else pol.keep_outside_symlinks) = false)
    (hrp : os_realpath fs (join2 st.source relative_path) fuel = some rp)
    (hrc : resolveComps fs [] (splitOnSep rp) fuel = some comps)
    (hgn : getNode fs comps = none) :
    (_copy_link fs pol st directory relative_path fuel =
      (st, some (Err.fileNotFound rp))) ∧
    GitCopier_copy testFS defaultPolicy (cs "/src")
        (Except.ok [cs "file", cs "out_dead_link", cs "empty"]) [] false 20 =
      (some [(cs "", DEntry.ddir mode700), (cs "file", DEntry.dfile [99] 13)],
        some (GitCopyErr.fsError (Err.fileNotFound (cs "/does-not-exist")))) := by
  constructor
  · have hstat : os_stat fs rp fuel = none := by
      simp only [os_stat, hrc]
      exact hgn
    have hdir : os_isdir fs rp fuel = false := by
      simp only [os_isdir, hstat]
    have hc2 : shutil_copy2 fs rp fuel = Except.error (Err.fileNotFound rp) := by
      simp only [shutil_copy2, hrc, hgn]
    simp only [_copy_link, os_readlink, hL, hkeep, Bool.false_eq_true,
      if_false, hrp, hdir, hc2]
  · decide

/-- Witness for `claim_C4`: the dangling `out_dead_link` of the test
tree raises `FileNotFoundError` for `/does-not-exist`. -/
theorem claim_C4_witness :
    (os_lstat testFS (join2 (cs "/src") (cs "out_dead_link")) 20 =
      some (FSNode.symlink (cs "../does-not-exist") 9)) ∧
    (os_realpath testFS (join2 (cs "/src") (cs "out_dead_link")) 20 =
      some (cs "/does-not-exist")) ∧
    (resolveComps testFS [] (splitOnSep (cs "/does-not-exist")) 20 =
      some [cs "does-not-exist"]) ∧
    (getNode testFS [cs "does-not-exist"] = none) ∧
    (_copy_link testFS defaultPolicy (mkTreeCopier (cs "/src")) (cs "")
        (cs "out_dead_link") 20 =
      (mkTreeCopier (cs "/src"),
        some (Err.fileNotFound (cs "/does-not-exist")))) :=
  ⟨rfl, rfl, rfl, rfl,
    (claim_C4 testFS defaultPolicy (mkTreeCopier (cs "/src")) (cs "")
      (cs "out_dead_link") (cs "../does-not-exist") (cs "/does-not-exist")
      [cs "does-not-exist"] 9 20 rfl (by decide) rfl rfl rfl).1⟩

/-- Counterexample to C6 as stated: the VCS-selective copy with exclusion
list `["dir", "file"]` over the tracked-file list `["link",
"dir/binary_file"]` does NOT produce an empty destination — `link` is not
matched by the exact filter nor by the prefixes `"dir/"`, `"file/"`, so the
destination contains `link` (an empty destination would hold only the
destination root). -/
theorem claim_C6_counterexample :
    (GitCopier_copy fsC6 defaultPolicy (cs "/src")
        (Except.ok [cs "link", cs "dir/binary_file"]) [cs "dir", cs "file"]
        false 20).1 =
      some [(cs "", DEntry.ddir mode700),
            (cs "link", DEntry.dlink (cs "empty") 2)] ∧
    (some [(cs "", DEntry.ddir mode700),
           (cs "link", DEntry.dlink (cs "empty") 2)] ≠
      some [(cs "", DEntry.ddir mode700)]) :=
  ⟨by decide, by decide⟩

/-- C6 (amended): excluding `["dir", "file"]` from a full-tree walk of a
source root containing the entries `empty`, `link`, `dir/`, and `file`
produces a destination containing exactly `empty` and `link`; and a
VCS-selective copy with the same exclusion list, over a tracked-file list
containing `link` and `dir/binary_file` (filtered by exact match on
top-level names and by prefix match on `"<name>/"`), produces a
destination containing exactly `link` (kept as a symlink) — not an empty
destination. -/
theorem claim_C6 :
    Copier_copy fsC6 defaultPolicy (cs "/src") [cs "dir", cs "file"] 20 =
      ({ source := cs "/src",
         createdDirs := [cs ".", cs ""],
         dest := [(cs "", DEntry.ddir mode700),
                  (cs "empty", DEntry.dfile [] 1),
                  (cs "link", DEntry.dlink (cs "empty") 2)] }, none) ∧
    GitCopier_copy fsC6 defaultPolicy (cs "/src")
        (Except.ok [cs "link", cs "dir/binary_file"]) [cs "dir", cs "file"]
        false 20 =
      (some [(cs "", DEntry.ddir mode700),
             (cs "link", DEntry.dlink (cs "empty") 2)], none) :=
  ⟨by decide, by decide⟩

/-- C10: for every `GitCopier` with `copy_repo_structure = true`, if the
source contains a directory named `.git`, then after copying the listed
tracked files the copy additionally performs a full tree walk replicating
`<source>/.git` into `<destination>/.git` even though `.git` is not in the
tracked-file list (second conjunct); with `copy_repo_structure = false`
(third conjunct), or when `<source>/.git` is not a directory (first,
general conjunct, and fourth conjunct where `.git` is a plain file), no
such extra copy occurs. -/
theorem claim_C10 :
    (∀ (fs : FSNode) (pol : Policy) (source : Str) (files : List Str)
      (exclude_root : List Str) (fuel : Nat),
      os_isdir fs (join2 source (cs ".git")) fuel = false →
      GitCopier_copy fs pol source (Except.ok files) exclude_root true fuel =
        GitCopier_copy fs pol source (Except.ok files) exclude_root false fuel) ∧
    GitCopier_copy fsGit defaultPolicy (cs "/repo") (Except.ok [cs "tracked"])
        [] true 25 =
      (some [(cs "", DEntry.ddir mode700),
             (cs "tracked", DEntry.dfile [1, 2] 51),
             (cs ".git", DEntry.ddir mode700),
             (cs ".git/config", DEntry.dfile [3] 52),
             (cs ".git/refs", DEntry.ddir 54),
             (cs ".git/refs/head", DEntry.dfile [4] 53)], none) ∧
    GitCopier_copy fsGit defaultPolicy (cs "/repo") (Except.ok [cs "tracked"])
        [] false 25 =
      (some [(cs "", DEntry.ddir mode700),
             (cs "tracked", DEntry.dfile [1, 2] 51)], none) ∧
    GitCopier_copy fsGitFile defaultPolicy (cs "/repo")
        (Except.ok [cs "tracked"]) [] true 25 =
      (some [(cs "", DEntry.ddir mode700),
             (cs "tracked", DEntry.dfile [1, 2] 51)], none) := by
  refine ⟨?_, by decide, by decide, by decide⟩
  intro fs pol source files exclude_root fuel hdir
  rcases h : gitCopyFiles fs pol exclude_root fuel (mkTreeCopier source) files
    with ⟨st, err⟩
  cases err with
  | some e => simp [GitCopier_copy, h]
  | none => simp [GitCopier_copy, h, hdir]

/-- Witness for `claim_C10`: in `fsGitFile`, `.git` is a plain file, so the
`copy_repo_structure` flag makes no difference. -/
theorem claim_C10_witness :
    os_isdir fsGitFile (join2 (cs "/repo") (cs ".git")) 25 = false ∧
    GitCopier_copy fsGitFile defaultPolicy (cs "/repo")
        (Except.ok [cs "tracked"]) [] true 25 =
      GitCopier_copy fsGitFile defaultPolicy (cs "/repo")
        (Except.ok [cs "tracked"]) [] false 25 :=
  ⟨by decide,
    claim_C10.1 fsGitFile defaultPolicy (cs "/repo") [cs "tracked"] [] 25
      (by decide)⟩
